import Mathlib

/-!
Shallow embedding of the debug-tracing subsystem of Nominatim
(`nominatim/api/logging.py`): the SQL statement materializer
(`BaseLogger.format_sql`), the HTML and text trace sinks (`HTMLLogger`,
`TextLogger`), and the context-scoped current-sink register
(`logger`, `set_log_output`, `log`, `get_and_disable`).

Python values that can appear as statement parameters are modelled by
`PyVal` (integers, strings, `None`, and geometry objects carrying a WKT
text); `str()` and `repr()` are modelled by `pyStr` and `pyRepr` on that
subset.  Exceptions are modelled by `Option`/`FmtRes` results.
-/

namespace NomLog

/-- Python parameter values as they occur in statement parameter maps:
integers, strings, `None`, and geometry objects exposing `to_wkt`.
Floats are not modelled; the claims under study never bind float
parameters. -/
inductive PyVal where
  | vint (n : Int)
  | vstr (s : String)
  | vnone
  | vgeom (wkt : String)
  deriving DecidableEq

/-- Single-quote character as a string, used by the model of Python
`repr` on strings. -/
def sq : String := String.singleton '\''

/-- Double-quote character as a string. -/
def dq : String := String.singleton '"'

/-- Escape a backslash or the given delimiter, as Python `repr` does
inside a string literal (printable characters only are modelled). -/
def pyEscapeChar (delim : Char) (c : Char) : String :=
  if c = '\\' then "\\\\"
  else if c = delim then "\\" ++ String.singleton delim
  else String.singleton c

/-- Model of Python `repr` on a string: wraps in single quotes, except
that a string containing a single quote but no double quote is wrapped
in double quotes; backslashes and the delimiter are escaped. -/
def pyReprStr (s : String) : String :=
  if s.toList.contains '\'' && !(s.toList.contains '"') then
    dq ++ String.join (s.toList.map (pyEscapeChar '"')) ++ dq
  else
    sq ++ String.join (s.toList.map (pyEscapeChar '\'')) ++ sq

/-- Model of Python `str` on a `PyVal`. -/
def pyStr : PyVal → String
  | .vint n => toString n
  | .vstr s => s
  | .vnone => "None"
  | .vgeom w => w

/-- Model of Python `repr` on a `PyVal`.  `repr` of a geometry object is
never taken by the code under study (geometry values are converted with
`to_wkt` before any `repr`); it is modelled as the repr of its WKT. -/
def pyRepr : PyVal → String
  | .vint n => toString n
  | .vstr s => pyReprStr s
  | .vnone => "None"
  | .vgeom w => pyReprStr w

/-- Insertion-ordered string-keyed map, modelling a Python `dict`. -/
abbrev PyDict := List (String × PyVal)

/-- Lookup of the value stored for a key, first occurrence. -/
def lookupA (m : PyDict) (k : String) : Option PyVal :=
  match m with
  | [] => none
  | (k', v) :: t => if k' = k then some v else lookupA t k

/-- Model of `dict.get(k, None)`. -/
def lookupD (m : PyDict) (k : String) : PyVal :=
  (lookupA m k).getD .vnone

/-- Model of `d[k] = v` on an insertion-ordered dict: an existing key is
updated in place, a new key is appended. -/
def updA (m : PyDict) (k : String) (v : PyVal) : PyDict :=
  match m with
  | [] => [(k, v)]
  | (k', v') :: t => if k' = k then (k, v) :: t else (k', v') :: updA t k v

/-- Parameter argument of `format_sql`/`sql`: a mapping, a sequence of
mappings (the in-list expansion case), or absent (`None`). -/
inductive ExtraParams where
  | mapping (m : PyDict)
  | seqm (ms : List PyDict)
  | absent

/-- Conversion applied by `format_sql` to each value of a mapping
argument: geometry values are replaced by their `to_wkt` text, `int`
and `float` values are kept, everything else by its `str()`. -/
def coerceExtra (v : PyVal) : PyVal :=
  match v with
  | .vgeom w => .vstr w
  | .vint n => .vint n
  | .vstr s => .vstr s
  | .vnone => .vstr "None"

/-- Working parameter map built by `format_sql` from
`dict(compiled.params)` and the extra parameters: a mapping merges its
coerced values in; a non-empty sequence of mappings binds each key of
its first element to the fresh placeholder token `:{k}`; an absent or
empty-sequence argument leaves the compiled parameters untouched. -/
def materializeParams (compiledParams : PyDict) (extra : ExtraParams) : PyDict :=
  match extra with
  | .mapping m => m.foldl (fun acc kv => updA acc kv.1 (coerceExtra kv.2)) compiledParams
  | .seqm [] => compiledParams
  | .seqm (m0 :: _) =>
      m0.foldl (fun acc kv => updA acc kv.1 (.vstr (":" ++ kv.1))) compiledParams
  | .absent => compiledParams

/-- Compiled statement as consumed by `format_sql`: its rendered text
(`str(compiled)`), its default parameter dict (`compiled.params`) and
its ordered placeholder-name list (`compiled.positiontup`). -/
structure Compiled where
  text : String
  params : PyDict
  positiontup : List String

/-- SQL dialect of the connection, `conn.dialect.name`. -/
inductive Dialect where
  | postgresql
  | sqlite
  deriving DecidableEq

/-- Check that a character list begins with the given pattern. -/
def charsBeginWith : List Char → List Char → Bool
  | _, [] => true
  | [], _ :: _ => false
  | a :: as, b :: bs => a = b && charsBeginWith as bs

/-- Check that a character list has the pattern as a contiguous
sub-list somewhere. -/
def charsHasSub : List Char → List Char → Bool
  | [], p => p.isEmpty
  | a :: t, p => charsBeginWith (a :: t) p || charsHasSub t p

/-- Substring test on strings. -/
def strHasSub (s pat : String) : Bool := charsHasSub s.toList pat.toList

/-- Character list of the postcompile marker opening
`__[POSTCOMPILE_`. -/
def markerChars : List Char := "__[POSTCOMPILE_".toList

/-- One step of the leftmost-first substitution of the regular
expression `__\[POSTCOMPILE_([^]]*)\]`: at each position, if the marker
opening matches and a closing bracket follows, the whole marker is
replaced by `repl` applied to the captured name; otherwise the scan
advances one character.  `fuel` bounds the recursion; it is always
called with the length of the list. -/
def substPostAux (repl : String → String) : Nat → List Char → List Char
  | 0, l => l
  | _ + 1, [] => []
  | fuel + 1, c :: t =>
      if charsBeginWith (c :: t) markerChars && ((c :: t).drop 15).any (· = ']') then
        let after := (c :: t).drop 15
        let name := after.takeWhile (· ≠ ']')
        let rest := (after.dropWhile (· ≠ ']')).drop 1
        (repl (String.mk name)).toList ++ substPostAux repl fuel rest
      else
        c :: substPostAux repl fuel t

/-- Model of `re.sub` with pattern `__\[POSTCOMPILE_([^]]*)\]` on a
string. -/
def substPostcompile (repl : String → String) (s : String) : String :=
  String.mk (substPostAux repl s.toList.length s.toList)

/-- Model of `re.sub` with pattern `\?` and a replacement function
drawing the next value from an iterator over `vals`: each `?` is
replaced by the next value in order; exhausting the iterator raises
`StopIteration`, modelled by `none`. -/
def substQmark : List Char → List String → Option (List Char)
  | [], _ => some []
  | c :: t, vs =>
      if c = '?' then
        match vs with
        | [] => none
        | v :: vs' => (substQmark t vs').map (fun r => v.toList ++ r)
      else (substQmark t vs).map (fun r => c :: r)

/-- Model of `re.sub` with pattern `%(?!\()`: every percent sign not
followed by an opening parenthesis is doubled. -/
def doublePercents : List Char → List Char
  | [] => []
  | '%' :: '(' :: t => '%' :: '(' :: doublePercents t
  | '%' :: t => '%' :: '%' :: doublePercents t
  | c :: t => c :: doublePercents t

/-- Result of a Python `%`-formatting operation, distinguishing the
exception type because `format_sql` catches `TypeError` in the
SQLAlchemy 1.x branch but lets every other exception propagate. -/
inductive FmtRes where
  | ok (s : String)
  | typeErr
  | valueErr
  deriving DecidableEq

/-- Map over the success case of a formatting result. -/
def FmtRes.mapOk (f : String → String) : FmtRes → FmtRes
  | .ok s => .ok (f s)
  | .typeErr => .typeErr
  | .valueErr => .valueErr

/-- Conversion characters that Python accepts after `%` but that raise
`TypeError` when the argument is a string (numeric and character
conversions); our argument tuples always consist of `repr` strings. -/
def numericConvChar (c : Char) : Bool :=
  c = 'd' || c = 'i' || c = 'o' || c = 'u' || c = 'x' || c = 'X' ||
  c = 'e' || c = 'E' || c = 'f' || c = 'F' || c = 'g' || c = 'G' || c = 'c'

/-- Model of Python `sqlstr % tuple(...)` where every tuple element is a
string: `%%` is a literal percent, `%s` consumes the next value, `%r`
and `%a` consume the next value and take its repr, a named spec `%(`
raises `TypeError` (format requires a mapping), a numeric conversion
raises `TypeError` (string argument), anything else after `%` raises
`ValueError`; surplus or missing arguments raise `TypeError`.  Width
and flag modifiers are not modelled: compiled SQL text never carries
them. -/
def pyFormatTuple : List Char → List String → FmtRes
  | [], vs => if vs.isEmpty then .ok "" else .typeErr
  | c :: t, vs =>
      if c = '%' then
        match t with
        | [] => .valueErr
        | c2 :: t2 =>
            if c2 = '%' then (pyFormatTuple t2 vs).mapOk (fun r => "%" ++ r)
            else if c2 = 's' then
              match vs with
              | [] => .typeErr
              | v :: vs' => (pyFormatTuple t2 vs').mapOk (fun r => v ++ r)
            else if c2 = 'r' || c2 = 'a' then
              match vs with
              | [] => .typeErr
              | v :: vs' => (pyFormatTuple t2 vs').mapOk (fun r => pyReprStr v ++ r)
            else if c2 = '(' then .typeErr
            else if numericConvChar c2 then .typeErr
            else .valueErr
      else (pyFormatTuple t vs).mapOk (fun r => String.singleton c ++ r)

/-- Read a parenthesised mapping key: characters up to the closing
parenthesis.  Returns the key and the remainder after the parenthesis,
or `none` when the parenthesis never closes (Python raises
`ValueError: incomplete format key`). -/
def readKey : List Char → Option (List Char × List Char)
  | [] => none
  | ')' :: t => some ([], t)
  | c :: t => (readKey t).map (fun p => (c :: p.1, p.2))

/-- Fuel-based model of Python `sqlstr % params` with a mapping
right-hand side, as used by the PostgreSQL branch for SQLAlchemy 2.x.
Only `%%` and `%(name)s` specs are modelled: after percent-doubling,
the compiled text contains no other specs.  A missing key raises
`KeyError`; a malformed or unmodelled spec raises; both are collapsed
to `none` because `format_sql` catches nothing on this path.  The fuel
is always the length of the list, which suffices because every step
consumes at least one character. -/
def pyFormatMapAux (m : PyDict) : Nat → List Char → Option String
  | _, [] => some ""
  | 0, _ :: _ => none
  | fuel + 1, '%' :: '%' :: t => (pyFormatMapAux m fuel t).map (fun r => "%" ++ r)
  | fuel + 1, '%' :: '(' :: t =>
      match readKey t with
      | some (key, 's' :: rest') =>
          match lookupA m (String.mk key) with
          | none => none
          | some v => (pyFormatMapAux m fuel rest').map (fun r => pyStr v ++ r)
      | _ => none
  | _ + 1, '%' :: _ => none
  | fuel + 1, c :: t => (pyFormatMapAux m fuel t).map (fun r => String.singleton c ++ r)

/-- Model of `sqlstr % params` with a mapping. -/
def pyFormatMap (l : List Char) (m : PyDict) : Option String :=
  pyFormatMapAux m l.length l

/-- Values substituted positionally for the placeholders of a
statement: the repr of the working-map value of each name in
`positiontup`, a missing name giving `repr(None)`. -/
def substVals (c : Compiled) (extra : ExtraParams) : List String :=
  c.positiontup.map (fun n => pyRepr (lookupD (materializeParams c.params extra) n))

/-- Shallow embedding of `BaseLogger.format_sql`.  `saV1` is the value
of `sa.__version__.startswith('1')`.  The returned value is `none`
exactly when the Python code raises an exception. -/
def format_sql (dialect : Dialect) (saV1 : Bool) (c : Compiled)
    (extra : ExtraParams) : Option String :=
  let params := materializeParams c.params extra
  match dialect with
  | .postgresql =>
      if saV1 then
        let s2 := substPostcompile (fun _ => "%s") c.text
        match pyFormatTuple s2.toList (substVals c extra) with
        | .ok r => some r
        | .typeErr => some s2
        | .valueErr => none
      else
        let s2 := String.mk (doublePercents c.text.toList)
        let s3 := substPostcompile (fun n => "%(" ++ n ++ ")s") s2
        pyFormatMap s3.toList params
  | .sqlite =>
      let s2 := substPostcompile (fun _ => "?") c.text
      (substQmark s2.toList (substVals c extra)).map String.mk

/-! Formatting helpers shared by the sinks. -/

/-- Model of `html.escape` with `quote=True` on one character. -/
def htmlEscapeChar (c : Char) : String :=
  if c = '&' then "&amp;"
  else if c = '<' then "&lt;"
  else if c = '>' then "&gt;"
  else if c = '"' then "&quot;"
  else if c = '\'' then "&#x27;"
  else String.singleton c

/-- Model of `html.escape` with `quote=True`. -/
def htmlEscape (s : String) : String := String.join (s.toList.map htmlEscapeChar)

/-- Left-pad a string with zeros to the given length. -/
def padZeros (n : Nat) (s : String) : String :=
  String.mk (List.replicate (n - s.length) '0') ++ s

/-- Fixed-point rendering of a non-negative rational with `prec`
fractional digits, modelling Python `format(x, '.5f')` on exactly
representable values (an inexact tie rounds up here; no claim depends
on the tie-breaking mode).  Implemented on the numerator and
denominator directly so that it evaluates by kernel reduction. -/
def formatFixedNN (prec : Nat) (q : ℚ) : String :=
  let scaled : Nat := q.num.toNat * 10 ^ prec
  let np : Nat := scaled / q.den + (if q.den ≤ 2 * (scaled % q.den) then 1 else 0)
  toString (np / 10 ^ prec) ++ "." ++ padZeros prec (toString (np % 10 ^ prec))

/-- Fixed-point rendering of a rational, sign handled separately. -/
def formatFixed (prec : Nat) (q : ℚ) : String :=
  if q < 0 then "-" ++ formatFixedNN prec (-q) else formatFixedNN prec q

/-- Python float value that may be `nan`, as produced by the expression
`res.importance or float("nan")`. -/
inductive PyFloatV where
  | num (q : ℚ)
  | nan
  deriving DecidableEq

/-- Fixed-point rendering of a possibly-nan value; `format(nan, '.5f')`
is the token `nan`. -/
def fmtFixedF (prec : Nat) : PyFloatV → String
  | .nan => "nan"
  | .num q => formatFixed prec q

/-- Model of `res.importance or float("nan")`: `None` and `0.0` are
falsy, so both give `nan`. -/
def importanceOrNan (i : Option ℚ) : PyFloatV :=
  match i with
  | none => .nan
  | some q => if q = 0 then .nan else .num q

/-- Model of `res.importance or -1`: `None` and `0.0` are falsy, so
both give `-1`. -/
def importanceOrNeg1 (i : Option ℚ) : ℚ :=
  match i with
  | none => -1
  | some q => if q = 0 then -1 else q

/-- Whitespace test used when splitting words. -/
def isWs (c : Char) : Bool :=
  c = ' ' || c = '\t' || c = '\n' || c = '\r'

/-- Character-level splitting into whitespace-separated words; `cur`
accumulates the current word in reverse. -/
def splitWordsChars : List Char → List Char → List String
  | [], cur => if cur.isEmpty then [] else [String.mk cur.reverse]
  | c :: t, cur =>
      if isWs c then
        if cur.isEmpty then splitWordsChars t []
        else String.mk cur.reverse :: splitWordsChars t []
      else splitWordsChars t (c :: cur)

/-- Split a string into whitespace-separated words. -/
def splitWords (s : String) : List String := splitWordsChars s.toList []

/-- Greedy line filling, modelling `textwrap.wrap` on its word list:
words are packed into lines of at most `width` characters joined by
single spaces; a word longer than `width` standing at the start of a
line is broken at `width` characters.  (Real `textwrap` may also break
a long word mid-line to fill the remaining space; the SQL texts under
study never contain words longer than the wrap width.)  The fuel bounds
the recursion and is always ample. -/
def wrapAux (width : Nat) : Nat → List String → String → List String
  | 0, _, cur => if cur = "" then [] else [cur]
  | _ + 1, [], cur => if cur = "" then [] else [cur]
  | fuel + 1, w :: ws, cur =>
      if cur = "" then
        if w.length ≤ width then wrapAux width fuel ws w
        else (w.take width) :: wrapAux width fuel ((w.drop width) :: ws) ""
      else
        if cur.length + 1 + w.length ≤ width then wrapAux width fuel ws (cur ++ " " ++ w)
        else cur :: wrapAux width fuel (w :: ws) ""

/-- Model of `textwrap.wrap(s, width=width)`. -/
def wrapText (width : Nat) (s : String) : List String :=
  wrapAux width (3 * s.toList.length + 3) (splitWords s) ""

/-! Search results and their debug rendering. -/

/-- The part of a search result consumed by `result_dump`: its `names`
mapping, house number, source table name, category tuple, address
rank, OSM object reference, country code and importance. -/
structure SearchResult where
  names : List (String × String)
  housenumber : Option String
  source_table : String
  category : List String
  rank_address : Int
  osm_object : Option (String × Int)
  country_code : Option String
  importance : Option ℚ
  deriving DecidableEq

/-- Lookup in the `names` mapping, first occurrence. -/
def lookupNames (m : List (String × String)) (k : String) : Option String :=
  match m with
  | [] => none
  | (k', v) :: t => if k' = k then some v else lookupNames t k

/-- Shallow embedding of `_debug_name`. -/
def debugName (r : SearchResult) : String :=
  match r.names with
  | (_, v0) :: _ => (lookupNames r.names "name").getD v0
  | [] =>
      match r.housenumber with
      | some h => "Hnr " ++ h
      | none => "[NONE]"

/-- Model of `str()` on an optional string field such as
`res.country_code` (absent renders as the token `None`). -/
def pyStrOptS : Option String → String
  | some s => s
  | none => "None"

/-- Shallow embedding of `format_osm` inside `HTMLLogger.result_dump`. -/
def format_osm (o : Option (String × Int)) : String :=
  match o with
  | none => "-"
  | some (t, i) =>
      if t = "N" then
        "<a href=\"https://www.openstreetmap.org/node/" ++ toString i ++ "\">" ++
          t ++ toString i ++ "</a>"
      else if t = "W" then
        "<a href=\"https://www.openstreetmap.org/way/" ++ toString i ++ "\">" ++
          t ++ toString i ++ "</a>"
      else if t = "R" then
        "<a href=\"https://www.openstreetmap.org/relation/" ++ toString i ++ "\">" ++
          t ++ toString i ++ "</a>"
      else t ++ toString i

/-- Model of `''.join(map(str, res.osm_object or []))` in
`TextLogger.result_dump`. -/
def osmText : Option (String × Int) → String
  | some (t, i) => t ++ toString i
  | none => ""

/-! Sink operations. -/

/-- Availability of the optional pygments dependency
(`CODE_HIGHLIGHT`) together with the two highlighting calls used by
`HTMLLogger`; the highlighter itself is an external collaborator and
enters the model as an uninterpreted function. -/
structure HlConfig where
  codeHighlight : Bool
  hlPython : String → String
  hlSql : String → String

/-- Timestamp line written by `HTMLLogger._timestamp`. -/
def tsHtml (now : String) : String :=
  "<p class=\"timestamp\">[" ++ now ++ "]</p>"

/-- Timestamp line written by `TextLogger._timestamp`. -/
def tsText (now : String) : String := "[" ++ now ++ "]\n"

/-- Argument of `var_dump`: a value, or a zero-argument callable that
is invoked first. -/
inductive VarArg where
  | val (v : PyVal)
  | thunk (f : Unit → PyVal)

/-- Model of the `if callable(var): var = var()` convention. -/
def evalVar : VarArg → PyVal
  | .val v => v
  | .thunk f => f ()

/-- Shallow embedding of `HTMLLogger._python_var`. -/
def pythonVarHtml (cfg : HlConfig) (v : PyVal) : String :=
  if cfg.codeHighlight then
    "<div class=\"highlight\"><code class=\"lang-python\">" ++ cfg.hlPython (pyStr v) ++
      "</code></div>"
  else
    "<code class=\"lang-python\">" ++ htmlEscape (pyStr v) ++ "</code>"

/-- Shallow embedding of `HTMLLogger.function`; the result is the new
buffer content (old buffer followed by the written text). -/
def htmlFunction (cfg : HlConfig) (now buf func : String)
    (kwargs : List (String × PyVal)) : String :=
  buf ++ tsHtml now ++ "<h1>Debug output for " ++ func ++ "()</h1>\n<p>Parameters:<dl>" ++
    String.join (kwargs.map fun kv =>
      "<dt>" ++ kv.1 ++ "</dt><dd>" ++ pythonVarHtml cfg kv.2 ++ "</dd>") ++
    "</dl></p>"

/-- Shallow embedding of `HTMLLogger.section`. -/
def htmlSection (now buf heading : String) : String :=
  buf ++ tsHtml now ++ "<h2>" ++ heading ++ "</h2>"

/-- Shallow embedding of `HTMLLogger.comment`. -/
def htmlComment (now buf text : String) : String :=
  buf ++ tsHtml now ++ "<p>" ++ text ++ "</p>"

/-- Shallow embedding of `HTMLLogger.var_dump`. -/
def htmlVarDump (cfg : HlConfig) (now buf heading : String) (v : VarArg) : String :=
  buf ++ tsHtml now ++ "<h5>" ++ heading ++ "</h5>" ++ pythonVarHtml cfg (evalVar v)

/-- Body row written by `HTMLLogger.table_dump` for a non-`None` row. -/
def htmlTableRow (row : List PyVal) : String :=
  "<tr>" ++ String.join (row.map fun c => "<td>" ++ pyStr c ++ "</td>") ++ "</tr>"

/-- Shallow embedding of `HTMLLogger.table_dump`.  The result is `none`
when the code raises: `next(rows)` on an empty iterator
(`StopIteration`) or `assert head` on a falsy first row
(`AssertionError`).  The timestamp written before the raise is not
retained by the model. -/
def htmlTableDump (now buf heading : String)
    (rows : List (Option (List PyVal))) : Option String :=
  match rows with
  | some (c :: cs) :: rest =>
      some (buf ++ tsHtml now ++ "<table><thead><tr><th colspan=\"" ++
        toString (c :: cs).length ++ "\">" ++ heading ++ "</th></tr><tr>" ++
        String.join ((c :: cs).map fun h => "<th>" ++ pyStr h ++ "</th>") ++
        "</tr></thead><tbody>" ++
        String.join (rest.filterMap (Option.map htmlTableRow)) ++
        "</tbody></table>")
  | _ => none

/-- Entry written by `HTMLLogger.result_dump` for one ranked result. -/
def htmlResultEntry (rank : ℚ) (r : SearchResult) : String :=
  "<dt>[" ++ formatFixed 3 rank ++ "]</dt>  <dd>" ++ r.source_table ++ "(" ++
    debugName r ++ ", type=(" ++ String.intercalate "," r.category ++ "), " ++
    "rank=" ++ toString r.rank_address ++ ", " ++
    "osm=" ++ format_osm r.osm_object ++ ", " ++
    "cc=" ++ pyStrOptS r.country_code ++ ", " ++
    "importance=" ++ fmtFixedF 5 (importanceOrNan r.importance) ++ ")</dd>"

/-- Shallow embedding of `HTMLLogger.result_dump`. -/
def htmlResultDump (now buf heading : String)
    (results : List (ℚ × SearchResult)) : String :=
  buf ++ tsHtml now ++ "<h5>" ++ heading ++ "</h5><p><dl>" ++
    String.join (results.map fun p => htmlResultEntry p.1 p.2) ++
    "</dl><b>TOTAL:</b> " ++ toString results.length ++ "</p>"

/-- Text written by `HTMLLogger.sql` around the materialized statement. -/
def htmlSqlWrap (cfg : HlConfig) (sqlstr : String) : String :=
  if cfg.codeHighlight then
    "<div class=\"highlight\"><code class=\"lang-sql\">" ++ cfg.hlSql sqlstr ++ "</code></div>"
  else
    "<code class=\"lang-sql\">" ++ htmlEscape sqlstr ++ "</code>"

/-- Shallow embedding of `HTMLLogger.sql`; `none` when `format_sql`
raises (the timestamp written before the raise is not retained). -/
def htmlSqlOp (cfg : HlConfig) (now buf : String) (d : Dialect) (saV1 : Bool)
    (c : Compiled) (e : ExtraParams) : Option String :=
  (format_sql d saV1 c e).map (fun s => buf ++ tsHtml now ++ htmlSqlWrap cfg s)

/-- Shallow embedding of `TextLogger.function`; note the absence of a
timestamp write. -/
def textFunction (buf func : String) (kwargs : List (String × PyVal)) : String :=
  buf ++ "#### Debug output for " ++ func ++ "()\n\nParameters:\n" ++
    String.join (kwargs.map fun kv => "  " ++ kv.1 ++ ": " ++ pyStr kv.2 ++ "\n") ++
    "\n"

/-- Shallow embedding of `TextLogger.section`. -/
def textSection (now buf heading : String) : String :=
  buf ++ tsText now ++ "\n# " ++ heading ++ "\n\n"

/-- Shallow embedding of `TextLogger.comment`; no timestamp write. -/
def textComment (buf text : String) : String :=
  buf ++ text ++ "\n"

/-- Shallow embedding of `TextLogger.var_dump`; no timestamp write. -/
def textVarDump (buf heading : String) (v : VarArg) : String :=
  buf ++ heading ++ ":\n  " ++ pyStr (evalVar v) ++ "\n\n"

/-- Model of `'{:<w}'.format(s)`: pad on the right to the width. -/
def ljust (w : Nat) (s : String) : String :=
  s ++ String.mk (List.replicate (w - s.length) ' ')

/-- Row text produced by the `row_format` of `TextLogger.table_dump`. -/
def textTableRow (maxlens : List Nat) (row : List String) : String :=
  "| " ++ String.intercalate " | " (List.zipWith ljust maxlens row) ++ " |\n"

/-- Column widths of `TextLogger.table_dump`: the maximum cell length
of each column over the non-`None` rows. -/
def textTableMaxlens (numCols : Nat) (data : List (Option (List String))) : List Nat :=
  (List.range numCols).map fun i =>
    (data.filterMap id).foldl (fun acc l => max acc ((l.getD i "").length)) 0

/-- Shallow embedding of `TextLogger.table_dump`; no timestamp write.
The result is `none` when the code raises: an empty row list
(`IndexError` on `data[0]`), a falsy first entry (`assert`), or a
non-`None` row shorter than the header (`IndexError` while measuring
columns).  Rows that are empty lists are mapped to `None` by the
truthiness test in the `data` comprehension. -/
def textTableDump (buf heading : String)
    (rows : List (Option (List PyVal))) : Option String :=
  let data : List (Option (List String)) := rows.map fun r =>
    match r with
    | none => none
    | some [] => none
    | some (c :: cs) => some ((c :: cs).map pyStr)
  match data with
  | [] => none
  | none :: _ => none
  | some h0 :: drest =>
      let numCols := h0.length
      if (some h0 :: drest).any (fun r =>
          match r with
          | some l => decide (l.length < numCols)
          | none => false) then none
      else
        let maxlens := textTableMaxlens numCols (some h0 :: drest)
        let tablewidth := maxlens.sum + 3 * numCols + 1
        let dashes := String.mk (List.replicate tablewidth '-') ++ "\n"
        some (buf ++ heading ++ ":\n" ++ dashes ++ textTableRow maxlens h0 ++ dashes ++
          String.join (drest.map fun r =>
            match r with
            | some row => textTableRow maxlens row
            | none => dashes) ++
          (match (some h0 :: drest).getLast? with
           | some (some _) => dashes
           | _ => ""))

/-- Entry written by `TextLogger.result_dump` for one ranked result. -/
def textResultEntry (rank : ℚ) (r : SearchResult) : String :=
  "[" ++ formatFixed 3 rank ++ "]  " ++ r.source_table ++ "(" ++
    debugName r ++ ", type=(" ++ String.intercalate "," r.category ++ "), " ++
    "rank=" ++ toString r.rank_address ++ ", " ++
    "osm=" ++ osmText r.osm_object ++ ", " ++
    "cc=" ++ pyStrOptS r.country_code ++ ", " ++
    "importance=" ++ formatFixed 5 (importanceOrNeg1 r.importance) ++ ")\n"

/-- Shallow embedding of `TextLogger.result_dump`. -/
def textResultDump (now buf heading : String)
    (results : List (ℚ × SearchResult)) : String :=
  buf ++ tsText now ++ heading ++ ":\n" ++
    String.join (results.map fun p => textResultEntry p.1 p.2) ++
    "TOTAL: " ++ toString results.length ++ "\n\n"

/-- Shallow embedding of `TextLogger.sql`. -/
def textSqlOp (now buf : String) (d : Dialect) (saV1 : Bool) (c : Compiled)
    (e : ExtraParams) : Option String :=
  (format_sql d saV1 c e).map (fun s =>
    buf ++ tsText now ++ "| " ++ String.intercalate "\n| " (wrapText 78 s) ++ "\n\n")

/-! The document shell and the context-scoped sink register. -/

/-- Shallow embedding of the module constant `HTML_HEADER`, a function
of the pygments style definitions spliced into it (the empty string
when `CODE_HIGHLIGHT` is off).  Literal braces of the embedded CSS are
written with character escapes. -/
def HTML_HEADER (styledefs : String) : String :=
  "<!DOCTYPE html>\n<html>\n<head>\n  <title>Nominatim - Debug</title>\n  <style>\n" ++
  styledefs ++
  "\n    h2 \x7b font-size: x-large \x7d\n\n    dl \x7b\n      padding-left: 10pt;\n" ++
  "      font-family: monospace\n    \x7d\n\n    dt \x7b\n      float: left;\n" ++
  "      font-weight: bold;\n      margin-right: 0.5em\n    \x7d\n\n" ++
  "    dt::after \x7b content: \": \"; \x7d\n\n    dd::after \x7b\n      clear: left;\n" ++
  "      display: block\n    \x7d\n\n    .lang-sql \x7b\n      color: #555;\n" ++
  "      font-size: small\n    \x7d\n\n    h5 \x7b\n        border: solid lightgrey 0.1pt;\n" ++
  "        margin-bottom: 0;\n        background-color: #f7f7f7\n    \x7d\n\n" ++
  "    h5 + .highlight \x7b\n        padding: 3pt;\n        border: solid lightgrey 0.1pt\n" ++
  "    \x7d\n\n    table, th, tbody \x7b\n        border: thin solid;\n" ++
  "        border-collapse: collapse;\n    \x7d\n    td \x7b\n" ++
  "        border-right: thin solid;\n        padding-left: 3pt;\n" ++
  "        padding-right: 3pt;\n    \x7d\n\n    .timestamp \x7b\n" ++
  "        font-size: 0.8em;\n        color: darkblue;\n" ++
  "        width: calc(100% - 5pt);\n        text-align: right;\n" ++
  "        position: absolute;\n        left: 0;\n        margin-top: -5px;\n    \x7d\n" ++
  "  </style>\n</head>\n<body>\n"

/-- Shallow embedding of the module constant `HTML_FOOTER`. -/
def HTML_FOOTER : String := "</body></html>"

/-- State of the current-sink register: the null sink (a plain
`BaseLogger`), an `HTMLLogger` with its buffer, or a `TextLogger` with
its buffer. -/
inductive Sink where
  | null
  | html (buf : String)
  | text (buf : String)
  deriving DecidableEq

/-- Shallow embedding of `get_buffer` across the three sink classes;
`styledefs` is the pygments style block spliced into `HTML_HEADER`. -/
def getBuffer (styledefs : String) : Sink → String
  | .null => ""
  | .html b => HTML_HEADER styledefs ++ b ++ HTML_FOOTER
  | .text b => b

/-- Default value of the `logger` context variable: a plain
`BaseLogger`, the null sink. -/
def loggerDefault : Sink := .null

/-- Shallow embedding of `set_log_output`: the sink newly stored in the
register for the given format string. -/
def set_log_output (fmt : String) : Sink :=
  if fmt = "html" then .html ""
  else if fmt = "text" then .text ""
  else .null

/-- Shallow embedding of `get_and_disable`: returns the snapshot of the
current sink and the new register value (the null sink). -/
def get_and_disable (styledefs : String) (s : Sink) : String × Sink :=
  (getBuffer styledefs s, .null)

/-- One trace event, carrying the wall-clock text of its emission
moment so that the timestamp writes can be modelled. -/
inductive Event where
  | efunction (now func : String) (kwargs : List (String × PyVal))
  | esection (now heading : String)
  | ecomment (now text : String)
  | evar (now heading : String) (v : VarArg)
  | etable (now heading : String) (rows : List (Option (List PyVal)))
  | eresult (now heading : String) (results : List (ℚ × SearchResult))
  | esql (now : String) (d : Dialect) (saV1 : Bool) (c : Compiled) (e : ExtraParams)

/-- Dispatch of one trace event to the current sink.  The null sink
(`BaseLogger`) implements every operation as a no-op; the other sinks
append to their buffer; `none` models a raised exception. -/
def emit (cfg : HlConfig) (s : Sink) (e : Event) : Option Sink :=
  match s with
  | .null => some .null
  | .html b =>
      match e with
      | .efunction now f kw => some (.html (htmlFunction cfg now b f kw))
      | .esection now h => some (.html (htmlSection now b h))
      | .ecomment now t => some (.html (htmlComment now b t))
      | .evar now h v => some (.html (htmlVarDump cfg now b h v))
      | .etable now h rows => (htmlTableDump now b h rows).map .html
      | .eresult now h res => some (.html (htmlResultDump now b h res))
      | .esql now d sa c ex => (htmlSqlOp cfg now b d sa c ex).map .html
  | .text b =>
      match e with
      | .efunction _ f kw => some (.text (textFunction b f kw))
      | .esection now h => some (.text (textSection now b h))
      | .ecomment _ t => some (.text (textComment b t))
      | .evar _ h v => some (.text (textVarDump b h v))
      | .etable _ h rows => (textTableDump b h rows).map .text
      | .eresult now h res => some (.text (textResultDump now b h res))
      | .esql now d sa c ex => (textSqlOp now b d sa c ex).map .text

/-- Sequential emission of a list of trace events. -/
def emitAll (cfg : HlConfig) (s : Sink) : List Event → Option Sink
  | [] => some s
  | e :: t =>
      match emit cfg s e with
      | none => none
      | some s' => emitAll cfg s' t

/-! Definitions supporting the analysis of `format_sql`. -/

/-- Number of `?` positional markers in a character list. -/
def countQ : List Char → Nat
  | [] => 0
  | c :: t => (if c = '?' then 1 else 0) + countQ t

/-- Check that every percent sign of a character list opens a `%%` or
`%s` spec, the only spec shapes produced by the SQLAlchemy 1.x
PostgreSQL branch on marker-substituted compiled text. -/
def specsOnlyS : List Char → Bool
  | [] => true
  | c :: t =>
      if c = '%' then
        match t with
        | [] => false
        | c2 :: t2 => (c2 = '%' || c2 = 's') && specsOnlyS t2
      else specsOnlyS t

/-- Number of `%s` specs in a character list. -/
def countS : List Char → Nat
  | [] => 0
  | c :: t =>
      if c = '%' then
        match t with
        | [] => 0
        | c2 :: t2 => (if c2 = 's' then 1 else 0) + countS t2
      else countS t

/-- Pairwise condition behind `colonQuoted`: given the previous
character `p`, every colon in the list is immediately preceded by a
single quote. -/
def colonQuotedAux : Char → List Char → Bool
  | _, [] => true
  | p, c :: t => (decide (c ≠ ':') || decide (p = '\'')) && colonQuotedAux c t

/-- Every colon in the character list is immediately preceded by a
single-quote character; in a rendered SQL text this means every `:name`
token stands inside a quoted string literal rather than as bare
named-placeholder syntax. -/
def colonQuoted : List Char → Bool
  | [] => true
  | c :: t => decide (c ≠ ':') && colonQuotedAux c t

/-- Concrete search result used to witness C8. -/
def srW : SearchResult :=
  ⟨[("name", "Cafe X")], none, "placex", ["amenity", "cafe"], 30,
    some ("N", 123), some "de", some 0⟩

/-- Concrete compiled statement used to witness C1: two `%s` specs but
a single position-tuple entry. -/
def c1W : Compiled := ⟨"SELECT %s, %s", [], ["a"]⟩

/-- Concrete compiled statement used to witness the sqlite part of C1. -/
def c1W2 : Compiled := ⟨"SELECT ?", [], ["a", "b"]⟩

/-- Concrete compiled statement used to witness C2: the name `id` is in
the position tuple but absent from the parameter map. -/
def c2W : Compiled := ⟨"SELECT ?", [], ["id"]⟩

/-- Concrete compiled statement used to witness C3: an in-list
postcompile marker. -/
def c3W : Compiled := ⟨"SELECT * FROM t WHERE id IN (__[POSTCOMPILE_ids])", [], ["ids"]⟩

/-- First mapping of the parameter sequence used to witness C3. -/
def m0W : PyDict := [("ids", .vint 1)]

/-- Expected sqlite rendering of the C3 witness statement: the bound
token appears single-quoted. -/
def c3Out : String := "SELECT * FROM t WHERE id IN (" ++ sq ++ ":ids" ++ sq ++ ")"

/-! Helper lemmas about the string utilities. -/

theorem toList_append (a b : String) : (a ++ b).toList = a.toList ++ b.toList :=
  String.data_append a b

theorem charsBeginWith_self_append (p r : List Char) :
    charsBeginWith (p ++ r) p = true := by
  induction p with
  | nil => cases r <;> rfl
  | cons c t ih => simp [charsBeginWith, ih]

theorem charsHasSub_of_right (x l p : List Char) (h : charsHasSub l p = true) :
    charsHasSub (x ++ l) p = true := by
  induction x with
  | nil => simpa using h
  | cons c t ih => simp [charsHasSub, ih]

theorem charsHasSub_start (l p : List Char) (h : charsBeginWith l p = true) :
    charsHasSub l p = true := by
  cases l with
  | nil => cases p with
      | nil => rfl
      | cons c t => simp [charsBeginWith] at h
  | cons c t => simp [charsHasSub, h]

theorem charsHasSub_mid (x p y : List Char) : charsHasSub (x ++ p ++ y) p = true := by
  rw [List.append_assoc]
  exact charsHasSub_of_right x (p ++ y) p
    (charsHasSub_start (p ++ y) p (charsBeginWith_self_append p y))

theorem strHasSub_parts (pre pat post : String) :
    strHasSub (pre ++ pat ++ post) pat = true := by
  unfold strHasSub
  rw [toList_append, toList_append]
  exact charsHasSub_mid pre.toList pat.toList post.toList


theorem appendTail5 (b x1 x2 y1 y2 y3 y4 y5 : String) :
    ∃ r, b ++ x1 ++ x2 ++ y1 ++ y2 ++ y3 ++ y4 ++ y5 = b ++ (x1 ++ (x2 ++ r)) :=
  ⟨y1 ++ (y2 ++ (y3 ++ (y4 ++ y5))), by simp [String.append_assoc]⟩

theorem substQmark_isSome (l : List Char) (vs : List String) :
    (substQmark l vs).isSome = true ↔ countQ l ≤ vs.length := by
  induction l generalizing vs with
  | nil => simp [substQmark, countQ]
  | cons c t ih =>
      by_cases hc : c = '?'
      · subst hc
        cases vs with
        | nil => simp [substQmark, countQ, Nat.add_comm]
        | cons v vs' =>
            simp [substQmark, countQ, Option.isSome_map', ih]
            omega
      · simp [substQmark, countQ, hc, Option.isSome_map', ih]

theorem specsOnlyS_cons (c : Char) (t : List Char) :
    specsOnlyS (c :: t) =
      if c = '%' then
        match t with
        | [] => false
        | c2 :: t2 => (c2 = '%' || c2 = 's') && specsOnlyS t2
      else specsOnlyS t := by rw [specsOnlyS.eq_def]

theorem countS_cons (c : Char) (t : List Char) :
    countS (c :: t) =
      if c = '%' then
        match t with
        | [] => 0
        | c2 :: t2 => (if c2 = 's' then 1 else 0) + countS t2
      else countS t := by rw [countS.eq_def]

theorem pyFormatTuple_cons (c : Char) (t : List Char) (vs : List String) :
    pyFormatTuple (c :: t) vs =
      if c = '%' then
        match t with
        | [] => .valueErr
        | c2 :: t2 =>
            if c2 = '%' then (pyFormatTuple t2 vs).mapOk (fun r => "%" ++ r)
            else if c2 = 's' then
              match vs with
              | [] => .typeErr
              | v :: vs' => (pyFormatTuple t2 vs').mapOk (fun r => v ++ r)
            else if c2 = 'r' || c2 = 'a' then
              match vs with
              | [] => .typeErr
              | v :: vs' => (pyFormatTuple t2 vs').mapOk (fun r => pyReprStr v ++ r)
            else if c2 = '(' then .typeErr
            else if numericConvChar c2 then .typeErr
            else .valueErr
      else (pyFormatTuple t vs).mapOk (fun r => String.singleton c ++ r) := by
  rw [pyFormatTuple.eq_def]

theorem pyFormatTuple_specsOnly (l : List Char) (vs : List String)
    (hs : specsOnlyS l = true) :
    (countS l = vs.length → ∃ s, pyFormatTuple l vs = .ok s) ∧
    (countS l ≠ vs.length → pyFormatTuple l vs = .typeErr) := by
  induction l, vs using pyFormatTuple.induct with
  | case1 vs hv =>
      obtain rfl : vs = [] := by simpa [List.isEmpty_iff] using hv
      exact ⟨fun _ => ⟨"", rfl⟩, fun hne => absurd rfl hne⟩
  | case2 vs hv =>
      have hne : vs ≠ [] := by simpa [List.isEmpty_iff] using hv
      constructor
      · intro h0
        exact absurd (List.length_eq_zero.mp (by simpa [countS] using h0.symm)) hne
      · intro _
        simp [pyFormatTuple, hv]
  | case3 vs => simp [specsOnlyS] at hs
  | case4 vs t2 ih =>
      have hs' : specsOnlyS t2 = true := by simpa [specsOnlyS] using hs
      obtain ⟨ihok, ihte⟩ := ih hs'
      constructor
      · intro heq
        obtain ⟨s, hsx⟩ := ihok (by simpa [countS] using heq)
        exact ⟨"%" ++ s, by simp [pyFormatTuple, hsx, FmtRes.mapOk]⟩
      · intro hne
        have hte := ihte (by simpa [countS] using hne)
        simp [pyFormatTuple, hte, FmtRes.mapOk]
  | case5 t2 hc =>
      constructor
      · intro heq
        exfalso
        simp [countS] at heq
      · intro _
        simp [pyFormatTuple]
  | case6 t2 v vs' hc ih =>
      have hs' : specsOnlyS t2 = true := by simpa [specsOnlyS] using hs
      obtain ⟨ihok, ihte⟩ := ih hs'
      constructor
      · intro heq
        have heq' : countS t2 = vs'.length := by simp [countS] at heq; omega
        obtain ⟨s, hsx⟩ := ihok heq'
        exact ⟨v ++ s, by simp [pyFormatTuple, hsx, FmtRes.mapOk]⟩
      · intro hne
        have hne' : countS t2 ≠ vs'.length := by simp [countS] at hne ⊢; omega
        have hte := ihte hne'
        simp [pyFormatTuple, hte, FmtRes.mapOk]
  | case7 c2 t2 h1 h2 h3 => simp [specsOnlyS, h1, h2] at hs
  | case8 c2 t2 h1 h2 h3 v vs' ih => simp [specsOnlyS, h1, h2] at hs
  | case9 vs t2 h1 h2 h3 => simp [specsOnlyS] at hs
  | case10 vs c2 t2 h1 h2 h3 h4 h5 => simp [specsOnlyS, h1, h2] at hs
  | case11 vs c2 t2 h1 h2 h3 h4 h5 => simp [specsOnlyS, h1, h2] at hs
  | case12 c t vs hc ih =>
      have hsc : specsOnlyS (c :: t) = specsOnlyS t := by
        rw [specsOnlyS_cons, if_neg hc]
      have hcc : countS (c :: t) = countS t := by
        rw [countS_cons, if_neg hc]
      have hpc : pyFormatTuple (c :: t) vs =
          (pyFormatTuple t vs).mapOk (fun r => String.singleton c ++ r) := by
        rw [pyFormatTuple_cons, if_neg hc]
      have hs' : specsOnlyS t = true := by rwa [hsc] at hs
      obtain ⟨ihok, ihte⟩ := ih hs'
      constructor
      · intro heq
        obtain ⟨s, hsx⟩ := ihok (by rwa [hcc] at heq)
        exact ⟨String.singleton c ++ s, by rw [hpc, hsx]; rfl⟩
      · intro hne
        have hte := ihte (by rwa [hcc] at hne)
        rw [hpc, hte]; rfl

theorem substVals_length (c : Compiled) (e : ExtraParams) :
    (substVals c e).length = c.positiontup.length :=
  List.length_map _ _

/-! Claim theorems. -/

/-- C10: calling `get_and_disable` when no format was ever selected
(the register still holds its default, a plain `BaseLogger`) returns
the empty string, stores the null sink back into the register, and
raises no error (the embedding is a total function). -/
theorem c10_finalize_default_null (sd : String) :
    get_and_disable sd loggerDefault = ("", Sink.null) := rfl

/-- C4 (amended): `get_and_disable` always resets the register to the
null sink and a second call in a row returns the empty string; the
first call returns the current snapshot, which is never empty for the
HTML sink (its document shell alone is non-empty) but equals the raw
buffer for the text sink, and hence is empty for a freshly selected
text sink with no events.  The original claim, that the first call
returns non-empty output from every active sink state, fails on that
last case. -/
theorem c4_finalize_amended (sd : String) (s : Sink) :
    (get_and_disable sd s).2 = Sink.null ∧
    get_and_disable sd (get_and_disable sd s).2 = ("", Sink.null) ∧
    (∀ b, ¬ (get_and_disable sd (Sink.html b)).1 = "") ∧
    (∀ b, (get_and_disable sd (Sink.text b)).1 = b) := by
  refine ⟨rfl, rfl, ?_, fun b => rfl⟩
  intro b h
  have h' : HTML_HEADER sd ++ b ++ HTML_FOOTER = "" := h
  have hl := congrArg String.length h'
  simp only [String.length_append] at hl
  have h14 : HTML_FOOTER.length = 14 := rfl
  have h0 : ("" : String).length = 0 := rfl
  rw [h14, h0] at hl
  omega

/-- C4 (counterexample): selecting the text format and immediately
finalizing is a first `get_and_disable` call from an active sink state
that returns the empty string, contradicting the claim that the first
call always returns non-empty output. -/
theorem c4_finalize_counterexample :
    get_and_disable "" (set_log_output "text") = ("", Sink.null) := rfl

/-- C5: an unrecognized format-selection string installs the null sink,
and after emitting any sequence of trace events into the register the
snapshot of the resulting sink is still the empty string. -/
theorem c5_unrecognized_format_null_sink (sd : String) (cfg : HlConfig)
    (fmt : String) (evs : List Event)
    (h1 : fmt ≠ "html") (h2 : fmt ≠ "text") :
    set_log_output fmt = Sink.null ∧
    (emitAll cfg (set_log_output fmt) evs).map (getBuffer sd) = some "" := by
  have hn : set_log_output fmt = Sink.null := by
    unfold set_log_output
    rw [if_neg h1, if_neg h2]
  refine ⟨hn, ?_⟩
  rw [hn]
  have hall : ∀ l, emitAll cfg Sink.null l = some Sink.null := by
    intro l
    induction l with
    | nil => rfl
    | cons e t ih => exact ih
  rw [hall]
  rfl

/-- C5 (witness): the format string `json` is unrecognized; selecting
it yields the null sink and the snapshot after two events is empty. -/
theorem c5_unrecognized_format_null_sink_witness :
    ("json" : String) ≠ "html" ∧ ("json" : String) ≠ "text" ∧
    (set_log_output "json" = Sink.null ∧
     (emitAll ⟨false, id, id⟩ (set_log_output "json")
        [.ecomment "T" "hi", .esection "T" "S"]).map (getBuffer "") = some "") :=
  ⟨by decide, by decide,
    c5_unrecognized_format_null_sink "" ⟨false, id, id⟩ "json"
      [.ecomment "T" "hi", .esection "T" "S"] (by decide) (by decide)⟩

/-- C7: a text-sink `sql` call for the sqlite dialect with compiled text
`SELECT * FROM t WHERE id = ?`, parameter mapping `id` to `5` and
position order `[id]` succeeds and appends output containing the
literal substring `SELECT * FROM t WHERE id = 5`, for either SQLAlchemy
version and any prior buffer content. -/
theorem c7_text_sql_literal_substitution (now buf : String) (sa : Bool) :
    ∃ out, textSqlOp now buf .sqlite sa
        ⟨"SELECT * FROM t WHERE id = ?", [], ["id"]⟩
        (.mapping [("id", .vint 5)]) = some out ∧
      strHasSub out "SELECT * FROM t WHERE id = 5" = true := by
  refine ⟨buf ++ tsText now ++ "| " ++ "SELECT * FROM t WHERE id = 5" ++ "\n\n", ?_, ?_⟩
  · have hf : format_sql .sqlite sa ⟨"SELECT * FROM t WHERE id = ?", [], ["id"]⟩
        (.mapping [("id", .vint 5)]) = some "SELECT * FROM t WHERE id = 5" := by
      cases sa <;> rfl
    rw [textSqlOp, hf]
    simp only [Option.map_some']
    have hw : String.intercalate "\n| " (wrapText 78 "SELECT * FROM t WHERE id = 5") =
        "SELECT * FROM t WHERE id = 5" := by decide
    rw [hw]
  · exact strHasSub_parts (buf ++ tsText now ++ "| ") _ "\n\n"

/-- C6 (amended): in the HTML sink every trace operation except
`get_buffer` writes its timestamp line into the buffer before its own
content, and in the text sink the operations `section`, `result_dump`
and `sql` do; the text-sink operations `comment`, `function`,
`var_dump` and `table_dump` append their content with no timestamp:
the last four conjuncts exhibit their output, which does not involve
the emission time at all — for `comment`, `function` and `var_dump`
the full output, and for `table_dump` the fact that whenever it
succeeds the appended text begins with the caller heading followed by
`:` and a newline, not with a timestamp line.  The original claim,
that every operation of both sinks timestamps first, fails on those
four text-sink operations. -/
theorem c6_timestamp_amended (cfg : HlConfig) (now buf : String) :
    (∀ f kw, ∃ r, htmlFunction cfg now buf f kw = (buf ++ tsHtml now) ++ r) ∧
    (∀ h, ∃ r, htmlSection now buf h = (buf ++ tsHtml now) ++ r) ∧
    (∀ t, ∃ r, htmlComment now buf t = (buf ++ tsHtml now) ++ r) ∧
    (∀ h v, ∃ r, htmlVarDump cfg now buf h v = (buf ++ tsHtml now) ++ r) ∧
    (∀ h c cs rows, ∃ r,
      htmlTableDump now buf h (some (c :: cs) :: rows) = some ((buf ++ tsHtml now) ++ r)) ∧
    (∀ h res, ∃ r, htmlResultDump now buf h res = (buf ++ tsHtml now) ++ r) ∧
    (∀ d sa c e, htmlSqlOp cfg now buf d sa c e =
      (format_sql d sa c e).map (fun s => buf ++ tsHtml now ++ htmlSqlWrap cfg s)) ∧
    (∀ h, ∃ r, textSection now buf h = (buf ++ tsText now) ++ r) ∧
    (∀ h res, ∃ r, textResultDump now buf h res = (buf ++ tsText now) ++ r) ∧
    (∀ d sa c e, textSqlOp now buf d sa c e =
      (format_sql d sa c e).map (fun s =>
        buf ++ tsText now ++ "| " ++ String.intercalate "\n| " (wrapText 78 s) ++ "\n\n")) ∧
    (∀ t, textComment buf t = buf ++ t ++ "\n") ∧
    (∀ f kw, textFunction buf f kw =
      buf ++ "#### Debug output for " ++ f ++ "()\n\nParameters:\n" ++
        String.join (kw.map fun kv => "  " ++ kv.1 ++ ": " ++ pyStr kv.2 ++ "\n") ++ "\n") ∧
    (∀ h v, textVarDump buf h v = buf ++ h ++ ":\n  " ++ pyStr (evalVar v) ++ "\n\n") ∧
    (∀ h rows out, textTableDump buf h rows = some out →
      ∃ r, out = buf ++ (h ++ (":\n" ++ r))) := by
  refine ⟨?_, ?_, ?_, ?_, ?_, ?_, fun d sa c e => rfl, ?_, ?_,
    fun d sa c e => rfl, fun t => rfl, fun f kw => rfl, fun h v => rfl, ?_⟩
  · intro f kw
    refine ⟨"<h1>Debug output for " ++ f ++ "()</h1>\n<p>Parameters:<dl>" ++
      String.join (kw.map fun kv =>
        "<dt>" ++ kv.1 ++ "</dt><dd>" ++ pythonVarHtml cfg kv.2 ++ "</dd>") ++
      "</dl></p>", ?_⟩
    unfold htmlFunction
    simp only [String.append_assoc]
  · intro h
    refine ⟨"<h2>" ++ h ++ "</h2>", ?_⟩
    unfold htmlSection
    simp only [String.append_assoc]
  · intro t
    refine ⟨"<p>" ++ t ++ "</p>", ?_⟩
    unfold htmlComment
    simp only [String.append_assoc]
  · intro h v
    refine ⟨"<h5>" ++ h ++ "</h5>" ++ pythonVarHtml cfg (evalVar v), ?_⟩
    unfold htmlVarDump
    simp only [String.append_assoc]
  · intro h c cs rows
    refine ⟨"<table><thead><tr><th colspan=\"" ++ toString (c :: cs).length ++ "\">" ++
      h ++ "</th></tr><tr>" ++
      String.join ((c :: cs).map fun x => "<th>" ++ pyStr x ++ "</th>") ++
      "</tr></thead><tbody>" ++
      String.join (rows.filterMap (Option.map htmlTableRow)) ++
      "</tbody></table>", ?_⟩
    exact congrArg some (by simp only [String.append_assoc])
  · intro h res
    refine ⟨"<h5>" ++ h ++ "</h5><p><dl>" ++
      String.join (res.map fun p => htmlResultEntry p.1 p.2) ++
      "</dl><b>TOTAL:</b> " ++ toString res.length ++ "</p>", ?_⟩
    unfold htmlResultDump
    simp only [String.append_assoc]
  · intro h
    refine ⟨"\n# " ++ h ++ "\n\n", ?_⟩
    unfold textSection
    simp only [String.append_assoc]
  · intro h res
    refine ⟨h ++ ":\n" ++
      String.join (res.map fun p => textResultEntry p.1 p.2) ++
      "TOTAL: " ++ toString res.length ++ "\n\n", ?_⟩
    unfold textResultDump
    simp only [String.append_assoc]
  · intro h rows out hout
    unfold textTableDump at hout
    dsimp only [] at hout
    split at hout
    · simp at hout
    · simp at hout
    · split at hout
      · simp at hout
      · rw [Option.some.injEq] at hout
        rw [← hout]
        exact appendTail5 buf h ":\n" _ _ _ _ _

/-- C6 (witness): the no-timestamp shape of the text-sink `table_dump`
output at a concrete table — the appended text begins with the heading,
not with a timestamp. -/
theorem c6_timestamp_amended_witness :
    textTableDump "" "H" [some [.vstr "a"], some [.vint 1]] =
      some "H:\n-----\n| a |\n-----\n| 1 |\n-----\n" ∧
    (∃ r, "H:\n-----\n| a |\n-----\n| 1 |\n-----\n" = "" ++ ("H" ++ (":\n" ++ r))) :=
  ⟨by decide,
    (c6_timestamp_amended ⟨false, id, id⟩ "T" "").2.2.2.2.2.2.2.2.2.2.2.2.2
      "H" [some [.vstr "a"], some [.vint 1]]
      "H:\n-----\n| a |\n-----\n| 1 |\n-----\n" (by decide)⟩

/-- C6 (counterexample): a text-sink `comment` call appends only the
comment text; its output on an empty buffer does not begin with `[`,
while every timestamp write begins with `[`, so no timestamp precedes
the content — contradicting the claim that every trace operation of
both sinks timestamps first. -/
theorem c6_text_comment_counterexample :
    textComment "" "hi" = "hi\n" ∧
    charsBeginWith "hi\n".toList ['['] = false ∧
    charsBeginWith (tsText "x").toList ['['] = true :=
  ⟨rfl, by decide, by decide⟩

/-- C9: the HTML sink inserts section headings, comment text, function
names, `var_dump` headings and table cells into its buffer verbatim,
without HTML-escaping (the heading of a section is in particular a
literal substring of the written output, markup characters included);
the fallback value renderer `_python_var` used when highlighting is
unavailable is the path that applies `html.escape`, which rewrites
markup characters. -/
theorem c9_html_unescaped_insertion (now buf : String) :
    (∀ h, htmlSection now buf h = buf ++ tsHtml now ++ "<h2>" ++ h ++ "</h2>") ∧
    (∀ h, strHasSub (htmlSection now buf h) h = true) ∧
    (∀ t, htmlComment now buf t = buf ++ tsHtml now ++ "<p>" ++ t ++ "</p>") ∧
    (∀ cfg f kw, htmlFunction cfg now buf f kw =
      buf ++ tsHtml now ++ "<h1>Debug output for " ++ f ++ "()</h1>\n<p>Parameters:<dl>" ++
        String.join (kw.map fun kv =>
          "<dt>" ++ kv.1 ++ "</dt><dd>" ++ pythonVarHtml cfg kv.2 ++ "</dd>") ++
        "</dl></p>") ∧
    (∀ cfg h v, htmlVarDump cfg now buf h v =
      buf ++ tsHtml now ++ "<h5>" ++ h ++ "</h5>" ++ pythonVarHtml cfg (evalVar v)) ∧
    (∀ h cell rows, htmlTableDump now buf h (some [cell] :: rows) =
      some (buf ++ tsHtml now ++ "<table><thead><tr><th colspan=\"" ++ toString (1 : Nat) ++
        "\">" ++ h ++ "</th></tr><tr>" ++ ("<th>" ++ pyStr cell ++ "</th>") ++
        "</tr></thead><tbody>" ++ String.join (rows.filterMap (Option.map htmlTableRow)) ++
        "</tbody></table>")) ∧
    (∀ hlP hlS v, pythonVarHtml ⟨false, hlP, hlS⟩ v =
      "<code class=\"lang-python\">" ++ htmlEscape (pyStr v) ++ "</code>") ∧
    htmlEscape "<" = "&lt;" ∧ htmlEscape "<" ≠ "<" := by
  refine ⟨fun h => rfl, ?_, fun t => rfl, fun cfg f kw => rfl, fun cfg h v => rfl,
    fun h cell rows => rfl, fun hlP hlS v => rfl, by decide, by decide⟩
  intro h
  exact strHasSub_parts (buf ++ tsHtml now ++ "<h2>") h "</h2>"

/-- C8: a search result whose importance is exactly `0.0` renders in
`result_dump` with the absent-importance sentinel (`nan` in the HTML
sink, `-1.00000` in the text sink), and its rendered output is
identical to that of the same result with importance absent. -/
theorem c8_zero_importance_sentinel (now buf hd : String) (rank : ℚ)
    (r : SearchResult) (h : r.importance = some 0) :
    fmtFixedF 5 (importanceOrNan r.importance) = "nan" ∧
    formatFixed 5 (importanceOrNeg1 r.importance) = "-1.00000" ∧
    htmlResultDump now buf hd [(rank, r)] =
      htmlResultDump now buf hd [(rank, { r with importance := none })] ∧
    textResultDump now buf hd [(rank, r)] =
      textResultDump now buf hd [(rank, { r with importance := none })] := by
  obtain ⟨nm, hn, st, cat, ra, oo, cc, imp⟩ := r
  have h' : imp = some 0 := h
  subst h'
  refine ⟨rfl, ?_, ?_, ?_⟩
  · show formatFixed 5 (importanceOrNeg1 (some 0)) = "-1.00000"
    decide
  · simp only [htmlResultDump, htmlResultEntry]
    rfl
  · simp only [textResultDump, textResultEntry]
    rfl

/-- C8 (witness): the sentinel rendering at a concrete search result
with importance exactly zero. -/
theorem c8_zero_importance_sentinel_witness :
    srW.importance = some 0 ∧
    (fmtFixedF 5 (importanceOrNan srW.importance) = "nan" ∧
     formatFixed 5 (importanceOrNeg1 srW.importance) = "-1.00000" ∧
     htmlResultDump "T" "" "H" [(1, srW)] =
       htmlResultDump "T" "" "H" [(1, { srW with importance := none })] ∧
     textResultDump "T" "" "H" [(1, srW)] =
       textResultDump "T" "" "H" [(1, { srW with importance := none })]) :=
  ⟨rfl, c8_zero_importance_sentinel "T" "" "H" 1 srW rfl⟩

/-- C1 (amended): in the PostgreSQL branch for SQLAlchemy 1.x, when the
marker-substituted compiled text carries only `%%`/`%s` specs, a
substitution-count mismatch makes `format_sql` return that
marker-substituted compiled text verbatim, and no exception escapes
(the `TypeError` of the `%` operator is caught).  In the sqlite branch,
however, `format_sql` raises exactly when the positional markers of the
marker-substituted text outnumber the position-tuple entries
(`StopIteration` escapes), instead of falling back to the compiled
text.  The original claim, that materialization never raises for every
dialect and falls back on every mismatch, fails on the sqlite
branch. -/
theorem c1_mismatch_fallback_amended (c : Compiled) (e : ExtraParams) (sa : Bool) :
    (specsOnlyS (substPostcompile (fun _ => "%s") c.text).toList = true →
      countS (substPostcompile (fun _ => "%s") c.text).toList ≠ (substVals c e).length →
      format_sql .postgresql true c e = some (substPostcompile (fun _ => "%s") c.text)) ∧
    (specsOnlyS (substPostcompile (fun _ => "%s") c.text).toList = true →
      (format_sql .postgresql true c e).isSome = true) ∧
    (format_sql .sqlite sa c e = none ↔
      c.positiontup.length < countQ (substPostcompile (fun _ => "?") c.text).toList) := by
  have hpg : format_sql .postgresql true c e =
      (match pyFormatTuple (substPostcompile (fun _ => "%s") c.text).toList (substVals c e) with
       | .ok r => some r
       | .typeErr => some (substPostcompile (fun _ => "%s") c.text)
       | .valueErr => none) := rfl
  have hsl : format_sql .sqlite sa c e =
      (substQmark (substPostcompile (fun _ => "?") c.text).toList (substVals c e)).map
        String.mk := rfl
  refine ⟨?_, ?_, ?_⟩
  · intro hspec hmis
    have hte := (pyFormatTuple_specsOnly _ (substVals c e) hspec).2 hmis
    rw [hpg, hte]
  · intro hspec
    by_cases hx : countS (substPostcompile (fun _ => "%s") c.text).toList =
        (substVals c e).length
    · obtain ⟨s, hsx⟩ := (pyFormatTuple_specsOnly _ (substVals c e) hspec).1 hx
      rw [hpg, hsx]
      rfl
    · have hte := (pyFormatTuple_specsOnly _ (substVals c e) hspec).2 hx
      rw [hpg, hte]
      rfl
  · rw [hsl]
    have hiff := substQmark_isSome (substPostcompile (fun _ => "?") c.text).toList
      (substVals c e)
    rw [substVals_length] at hiff
    constructor
    · intro hnone
      have hq : substQmark (substPostcompile (fun _ => "?") c.text).toList
          (substVals c e) = none := Option.map_eq_none'.mp hnone
      rw [hq] at hiff
      simp only [Option.isSome_none, Bool.false_eq_true, false_iff] at hiff
      omega
    · intro hlt
      cases hq : substQmark (substPostcompile (fun _ => "?") c.text).toList
          (substVals c e) with
      | none => rfl
      | some r =>
          exfalso
          rw [hq] at hiff
          simp only [Option.isSome_some, true_iff] at hiff
          omega

/-- C1 (counterexample): for the sqlite dialect, a compiled text with
two positional markers but a single position-tuple entry makes
`format_sql` raise (`StopIteration` escaping from the replacement
iterator, modelled by `none`) instead of returning the compiled text
verbatim as the claim demands. -/
theorem c1_sqlite_mismatch_raises_counterexample :
    format_sql .sqlite false ⟨"SELECT ?, ?", [], ["a"]⟩ .absent = none := by rfl

/-- C1 (witness): the amended behaviour at concrete inputs — the
PostgreSQL 1.x fallback on a two-spec/one-value mismatch and the sqlite
raise condition. -/
theorem c1_mismatch_fallback_amended_witness :
    (specsOnlyS (substPostcompile (fun _ => "%s") c1W.text).toList = true) ∧
    (countS (substPostcompile (fun _ => "%s") c1W.text).toList ≠
      (substVals c1W .absent).length) ∧
    format_sql .postgresql true c1W .absent =
      some (substPostcompile (fun _ => "%s") c1W.text) ∧
    (format_sql .sqlite true c1W2 .absent = none ↔
      c1W2.positiontup.length <
        countQ (substPostcompile (fun _ => "?") c1W2.text).toList) :=
  ⟨by decide, by decide,
    (c1_mismatch_fallback_amended c1W .absent true).1 (by decide) (by decide),
    (c1_mismatch_fallback_amended c1W2 .absent true).2.2⟩

/-- C2 (amended): in the positional-substitution branches (sqlite for
either SQLAlchemy version, and PostgreSQL under SQLAlchemy 1.x), the
value substituted for a position-tuple name that is missing from the
working parameter map is the literal token `None`: the shared value
list `substVals` maps such a name to `None`, and the two `rfl`
conjuncts exhibit that both branches substitute exactly this list.  In
the PostgreSQL branch for SQLAlchemy 2.x, however, a missing
placeholder name raises `KeyError` instead (see the counterexample), so
the original for-every-dialect claim fails there. -/
theorem c2_missing_name_none_amended (c : Compiled) (e : ExtraParams) (name : String)
    (h1 : name ∈ c.positiontup)
    (h2 : lookupA (materializeParams c.params e) name = none) :
    "None" ∈ substVals c e ∧
    format_sql .sqlite true c e =
      (substQmark (substPostcompile (fun _ => "?") c.text).toList (substVals c e)).map
        String.mk ∧
    format_sql .postgresql true c e =
      (match pyFormatTuple (substPostcompile (fun _ => "%s") c.text).toList (substVals c e) with
       | .ok r => some r
       | .typeErr => some (substPostcompile (fun _ => "%s") c.text)
       | .valueErr => none) := by
  refine ⟨?_, rfl, rfl⟩
  have hxx : pyRepr (lookupD (materializeParams c.params e) name) = "None" := by
    unfold lookupD
    rw [h2]
    rfl
  unfold substVals
  exact hxx ▸ List.mem_map_of_mem _ h1

/-- C2 (counterexample): for the PostgreSQL dialect under SQLAlchemy
2.x, a placeholder name listed in the position order but missing from
the working parameter map makes `format_sql` raise `KeyError` (modelled
by `none`) rather than substitute the literal token `None` as the
claim demands for every dialect. -/
theorem c2_postgres_missing_name_raises_counterexample :
    format_sql .postgresql false ⟨"SELECT %(id)s", [], ["id"]⟩ .absent = none := by rfl

/-- C2 (witness): the amended behaviour at a concrete input where the
name `id` is bound in the position order but absent from the map; the
sqlite rendering indeed shows the token `None`. -/
theorem c2_missing_name_none_amended_witness :
    ("id" ∈ c2W.positiontup) ∧
    (lookupA (materializeParams c2W.params .absent) "id" = none) ∧
    ("None" ∈ substVals c2W .absent ∧
     format_sql .sqlite true c2W .absent =
       (substQmark (substPostcompile (fun _ => "?") c2W.text).toList
         (substVals c2W .absent)).map String.mk ∧
     format_sql .postgresql true c2W .absent =
       (match pyFormatTuple (substPostcompile (fun _ => "%s") c2W.text).toList
           (substVals c2W .absent) with
        | .ok r => some r
        | .typeErr => some (substPostcompile (fun _ => "%s") c2W.text)
        | .valueErr => none)) ∧
    format_sql .sqlite true c2W .absent = some "SELECT None" :=
  ⟨by decide, rfl,
    c2_missing_name_none_amended c2W .absent "id" (by decide) rfl, by rfl⟩

/-! Lemmas supporting C3: behaviour of the working-map update fold and
of the colon-quoting invariant. -/

theorem lookupA_updA_self (m : PyDict) (k : String) (v : PyVal) :
    lookupA (updA m k v) k = some v := by
  induction m with
  | nil => simp [updA, lookupA]
  | cons kv t ih =>
      obtain ⟨k1, v1⟩ := kv
      by_cases hk : k1 = k
      · subst hk
        simp [updA, lookupA]
      · simp [updA, lookupA, hk, ih]

theorem lookupA_updA_other (m : PyDict) (k k' : String) (v : PyVal) (h : k' ≠ k) :
    lookupA (updA m k' v) k = lookupA m k := by
  induction m with
  | nil => simp [updA, lookupA, h]
  | cons kv t ih =>
      obtain ⟨k1, v1⟩ := kv
      by_cases h1 : k1 = k'
      · subst h1
        simp [updA, lookupA, h, ih]
      · simp [updA, lookupA, h1, ih]

theorem lookupA_mem (m : PyDict) (k : String) (v : PyVal)
    (h : lookupA m k = some v) : (k, v) ∈ m := by
  induction m with
  | nil => simp [lookupA] at h
  | cons kv t ih =>
      obtain ⟨k1, v1⟩ := kv
      by_cases hk : k1 = k
      · subst hk
        simp [lookupA] at h
        simp [h]
      · simp [lookupA, hk] at h
        exact List.mem_cons_of_mem _ (ih h)

theorem seqFold_lookup_notmem (m0 : PyDict) (acc : PyDict) (k : String)
    (h : ∀ kv ∈ m0, kv.1 ≠ k) :
    lookupA (m0.foldl (fun a kv => updA a kv.1 (.vstr (":" ++ kv.1))) acc) k =
      lookupA acc k := by
  induction m0 generalizing acc with
  | nil => rfl
  | cons kv t ih =>
      rw [List.foldl_cons]
      rw [ih _ (fun x hx => h x (List.mem_cons_of_mem _ hx))]
      exact lookupA_updA_other acc k kv.1 _ (h kv (List.mem_cons_self _ _))

theorem seqFold_lookup_mem (m0 : PyDict) (acc : PyDict) (k : String)
    (h : k ∈ m0.map Prod.fst) :
    lookupA (m0.foldl (fun a kv => updA a kv.1 (.vstr (":" ++ kv.1))) acc) k =
      some (.vstr (":" ++ k)) := by
  induction m0 generalizing acc with
  | nil => simp at h
  | cons kv t ih =>
      rw [List.foldl_cons]
      by_cases hmem : k ∈ t.map Prod.fst
      · exact ih _ hmem
      · have hk : kv.1 = k := by
          rw [List.map_cons] at h
          rcases List.mem_cons.mp h with h1 | h1
          · exact h1.symm
          · exact absurd h1 hmem
        have hpres := seqFold_lookup_notmem t (updA acc kv.1 (.vstr (":" ++ kv.1))) k
          (fun x hx hxx => hmem (hxx ▸ List.mem_map_of_mem Prod.fst hx))
        rw [hpres, hk]
        exact lookupA_updA_self acc k _

theorem seqFold_lookup_cases (m0 : PyDict) (acc : PyDict) (k : String) :
    (k ∈ m0.map Prod.fst ∧
      lookupA (m0.foldl (fun a kv => updA a kv.1 (.vstr (":" ++ kv.1))) acc) k =
        some (.vstr (":" ++ k))) ∨
    lookupA (m0.foldl (fun a kv => updA a kv.1 (.vstr (":" ++ kv.1))) acc) k =
      lookupA acc k := by
  by_cases h : k ∈ m0.map Prod.fst
  · exact Or.inl ⟨h, seqFold_lookup_mem m0 acc k h⟩
  · refine Or.inr (seqFold_lookup_notmem m0 acc k ?_)
    intro kv hkv hne
    exact h (hne ▸ List.mem_map_of_mem Prod.fst hkv)

theorem colonQuotedAux_of_noColon (l : List Char) (h : l.all (· ≠ ':') = true) :
    ∀ p, colonQuotedAux p l = true := by
  induction l with
  | nil => intro p; rfl
  | cons c t ih =>
      intro p
      rw [List.all_cons] at h
      obtain ⟨h1, h2⟩ := Bool.and_eq_true_iff.mp h
      simp only [colonQuotedAux, Bool.and_eq_true, Bool.or_eq_true]
      exact ⟨Or.inl h1, ih h2 c⟩

theorem colonQuoted_of_noColon (l : List Char) (h : l.all (· ≠ ':') = true) :
    colonQuoted l = true := by
  cases l with
  | nil => rfl
  | cons c t =>
      rw [List.all_cons] at h
      obtain ⟨h1, h2⟩ := Bool.and_eq_true_iff.mp h
      simp only [colonQuoted, Bool.and_eq_true]
      exact ⟨h1, colonQuotedAux_of_noColon t h2 c⟩

theorem colonQuotedAux_of_colonQuoted (l : List Char) (h : colonQuoted l = true)
    (p : Char) : colonQuotedAux p l = true := by
  cases l with
  | nil => rfl
  | cons c t =>
      simp only [colonQuoted, Bool.and_eq_true] at h
      simp only [colonQuotedAux, Bool.and_eq_true, Bool.or_eq_true]
      exact ⟨Or.inl h.1, h.2⟩

theorem colonQuotedAux_append (t l2 : List Char) (p : Char)
    (h1 : colonQuotedAux p t = true) (h2 : colonQuoted l2 = true) :
    colonQuotedAux p (t ++ l2) = true := by
  induction t generalizing p with
  | nil => simpa using colonQuotedAux_of_colonQuoted l2 h2 p
  | cons c t' ih =>
      simp only [colonQuotedAux, Bool.and_eq_true] at h1
      simp only [List.cons_append, colonQuotedAux, Bool.and_eq_true]
      exact ⟨h1.1, ih c h1.2⟩

theorem colonQuoted_append (l1 l2 : List Char) (h1 : colonQuoted l1 = true)
    (h2 : colonQuoted l2 = true) : colonQuoted (l1 ++ l2) = true := by
  cases l1 with
  | nil => simpa using h2
  | cons c t =>
      simp only [colonQuoted, Bool.and_eq_true] at h1
      simp only [List.cons_append, colonQuoted, Bool.and_eq_true]
      exact ⟨h1.1, colonQuotedAux_append t l2 c h1.2 h2⟩

theorem colonQuoted_substQmark (l : List Char) (vs : List String) (out : List Char)
    (hl : l.all (· ≠ ':') = true)
    (hv : ∀ v ∈ vs, colonQuoted v.toList = true)
    (hout : substQmark l vs = some out) : colonQuoted out = true := by
  induction l generalizing vs out with
  | nil =>
      simp only [substQmark, Option.some.injEq] at hout
      rw [← hout]
      rfl
  | cons c t ih =>
      rw [List.all_cons] at hl
      obtain ⟨hc1, hl'⟩ := Bool.and_eq_true_iff.mp hl
      by_cases hc : c = '?'
      · subst hc
        cases vs with
        | nil => simp [substQmark] at hout
        | cons v vs' =>
            simp only [substQmark, if_pos, Option.map_eq_some'] at hout
            obtain ⟨r, hr, hre⟩ := hout
            rw [← hre]
            exact colonQuoted_append _ _ (hv v (List.mem_cons_self _ _))
              (ih vs' r hl' (fun x hx => hv x (List.mem_cons_of_mem _ hx)) hr)
      · simp only [substQmark, if_neg hc, Option.map_eq_some'] at hout
        obtain ⟨r, hr, hre⟩ := hout
        rw [← hre]
        have hcr := ih vs r hl' hv hr
        simp only [colonQuoted, Bool.and_eq_true]
        exact ⟨hc1, colonQuotedAux_of_colonQuoted r hcr c⟩

theorem noColon_substPostAux (fuel : Nat) (l : List Char)
    (h : l.all (· ≠ ':') = true) :
    (substPostAux (fun _ => "?") fuel l).all (· ≠ ':') = true := by
  induction fuel generalizing l with
  | zero => simpa [substPostAux] using h
  | succ f ih =>
      cases l with
      | nil => rfl
      | cons c t =>
          rw [substPostAux]
          split
          · rw [List.all_append]
            refine Bool.and_eq_true_iff.mpr ⟨by decide, ?_⟩
            apply ih
            have hsub : List.Sublist ((((c :: t).drop 15).dropWhile (· ≠ ']')).drop 1)
                (c :: t) :=
              ((List.drop_sublist _ _).trans
                (List.dropWhile_sublist _)).trans (List.drop_sublist _ _)
            rw [List.all_eq_true] at h ⊢
            exact fun x hx => h x (hsub.subset hx)
          · rw [List.all_cons] at h ⊢
            obtain ⟨h1, h2⟩ := Bool.and_eq_true_iff.mp h
            exact Bool.and_eq_true_iff.mpr ⟨h1, ih t h2⟩

theorem contains_false_of_all_ne (l : List Char) (a : Char)
    (h : ∀ x ∈ l, x ≠ a) : l.contains a = false := by
  induction l with
  | nil => rfl
  | cons c t ih =>
      have hca : (a == c) = false := by
        have hne := h c (List.mem_cons_self _ _)
        exact beq_eq_false_iff_ne.mpr (fun hh => hne hh.symm)
      simp only [List.contains_cons, hca, Bool.false_or]
      exact ih (fun x hx => h x (List.mem_cons_of_mem _ hx))

theorem join_map_singleton (l : List Char) :
    String.join (l.map String.singleton) = String.mk l := by
  apply String.ext
  rw [String.data_join]
  induction l with
  | nil => rfl
  | cons c t ih => simpa using ih

theorem pyReprStr_clean (s : String)
    (h : s.toList.all (fun ch => !(ch = '\'') && !(ch = '"') && !(ch = '\\')) = true) :
    pyReprStr s = sq ++ s ++ sq := by
  have hall := List.all_eq_true.mp h
  have hq : s.toList.contains '\'' = false := by
    apply contains_false_of_all_ne
    intro x hx
    have := hall x hx
    simp only [Bool.and_eq_true, Bool.not_eq_true', decide_eq_false_iff_not] at this
    exact this.1.1
  have hmap : s.toList.map (pyEscapeChar '\'') = s.toList.map String.singleton := by
    apply List.map_congr_left
    intro x hx
    have := hall x hx
    simp only [Bool.and_eq_true, Bool.not_eq_true', decide_eq_false_iff_not] at this
    unfold pyEscapeChar
    rw [if_neg this.2, if_neg this.1.1]
  unfold pyReprStr
  rw [hq]
  simp only [Bool.false_and]
  rw [if_neg Bool.false_ne_true]
  rw [hmap, join_map_singleton]
  rfl

theorem substVals_colonQuoted (c : Compiled) (m0 : PyDict) (ms : List PyDict)
    (hparams : c.params.all (fun kv => (pyRepr kv.2).toList.all (· ≠ ':')) = true)
    (hkeys : m0.all (fun kv => kv.1.toList.all
      (fun ch => !(ch = ':') && !(ch = '\'') && !(ch = '"') && !(ch = '\\'))) = true) :
    ∀ v ∈ substVals c (.seqm (m0 :: ms)), colonQuoted v.toList = true := by
  intro v hv
  unfold substVals at hv
  obtain ⟨n, hn, hveq⟩ := List.mem_map.mp hv
  rw [← hveq]
  have hps : materializeParams c.params (.seqm (m0 :: ms)) =
      m0.foldl (fun a kv => updA a kv.1 (.vstr (":" ++ kv.1))) c.params := rfl
  rcases seqFold_lookup_cases m0 c.params n with ⟨hmem, heq⟩ | heq
  · rw [lookupD, hps, heq]
    obtain ⟨kv, hkv, hfst⟩ := List.mem_map.mp hmem
    have hclean := List.all_eq_true.mp hkeys kv hkv
    have hcleanAll := List.all_eq_true.mp hclean
    subst hfst
    show colonQuoted (pyReprStr (":" ++ kv.1)).toList = true
    have hqclean : (":" ++ kv.1).toList.all
        (fun ch => !(ch = '\'') && !(ch = '"') && !(ch = '\\')) = true := by
      rw [toList_append]
      rw [List.all_append]
      refine Bool.and_eq_true_iff.mpr ⟨by decide, ?_⟩
      rw [List.all_eq_true]
      intro x hx
      have := hcleanAll x hx
      simp only [Bool.and_eq_true] at this ⊢
      exact ⟨⟨this.1.1.2, this.1.2⟩, this.2⟩
    rw [pyReprStr_clean _ hqclean]
    have hdata : (sq ++ (":" ++ kv.1) ++ sq).toList =
        '\'' :: ':' :: (kv.1.toList ++ ['\'']) := by
      rw [toList_append, toList_append, toList_append]
      rfl
    rw [hdata]
    simp only [colonQuoted, colonQuotedAux, Bool.and_eq_true, Bool.or_eq_true]
    refine ⟨by decide, Or.inr (by decide), ?_⟩
    apply colonQuotedAux_of_noColon
    rw [List.all_append]
    refine Bool.and_eq_true_iff.mpr ⟨?_, by decide⟩
    rw [List.all_eq_true]
    intro x hx
    have := hcleanAll x hx
    simp only [Bool.and_eq_true, Bool.not_eq_true', decide_eq_false_iff_not] at this
    simpa using this.1.1.1
  · rw [lookupD, hps, heq]
    cases hl : lookupA c.params n with
    | none => decide
    | some v0 =>
        have hmem0 := lookupA_mem c.params n v0 hl
        have hv0 := List.all_eq_true.mp hparams _ hmem0
        exact colonQuoted_of_noColon _ hv0

/-- C3: when the parameter argument is a non-empty sequence of
mappings, `format_sql` binds every key of the first mapping to the
fresh placeholder token `:{key}` in the working parameter map, instead
of to a literal value; consequently the sqlite rendering carries no
bare named-placeholder syntax: every colon of the output is immediately
preceded by a single-quote character, i.e. each `:key` token appears
only as a quoted string literal.  The hypotheses restrict the compiled
text, the compiled parameter reprs and the mapping keys to
colon-free/quote-free characters, which the SQL compiler guarantees
for identifiers. -/
theorem c3_inlist_placeholder_binding (c : Compiled) (m0 : PyDict) (ms : List PyDict)
    (sa : Bool)
    (htext : c.text.toList.all (· ≠ ':') = true)
    (hparams : c.params.all (fun kv => (pyRepr kv.2).toList.all (· ≠ ':')) = true)
    (hkeys : m0.all (fun kv => kv.1.toList.all
      (fun ch => !(ch = ':') && !(ch = '\'') && !(ch = '"') && !(ch = '\\'))) = true) :
    (∀ k, k ∈ m0.map Prod.fst →
      lookupA (materializeParams c.params (.seqm (m0 :: ms))) k =
        some (.vstr (":" ++ k))) ∧
    (∀ out, format_sql .sqlite sa c (.seqm (m0 :: ms)) = some out →
      colonQuoted out.toList = true) := by
  constructor
  · intro k hk
    exact seqFold_lookup_mem m0 c.params k hk
  · intro out hout
    have hsl : format_sql .sqlite sa c (.seqm (m0 :: ms)) =
        (substQmark (substPostcompile (fun _ => "?") c.text).toList
          (substVals c (.seqm (m0 :: ms)))).map String.mk := rfl
    rw [hsl] at hout
    obtain ⟨r, hr, hre⟩ := Option.map_eq_some'.mp hout
    rw [← hre]
    show colonQuoted r = true
    exact colonQuoted_substQmark _ _ _ (noColon_substPostAux _ _ htext)
      (substVals_colonQuoted c m0 ms hparams hkeys) hr

/-- C3 (witness): the binding and the quoted rendering at a concrete
in-list statement — the key `ids` is bound to the token `:ids` and the
sqlite output shows it single-quoted. -/
theorem c3_inlist_placeholder_binding_witness :
    (c3W.text.toList.all (· ≠ ':') = true) ∧
    (c3W.params.all (fun kv => (pyRepr kv.2).toList.all (· ≠ ':')) = true) ∧
    (m0W.all (fun kv => kv.1.toList.all
      (fun ch => !(ch = ':') && !(ch = '\'') && !(ch = '"') && !(ch = '\\'))) = true) ∧
    lookupA (materializeParams c3W.params (.seqm [m0W])) "ids" =
      some (.vstr (":" ++ "ids")) ∧
    format_sql .sqlite false c3W (.seqm [m0W]) = some c3Out ∧
    colonQuoted c3Out.toList = true :=
  ⟨by decide, by decide, by decide,
    (c3_inlist_placeholder_binding c3W m0W [] false (by decide) (by decide) (by decide)).1
      "ids" (by decide),
    by decide,
    (c3_inlist_placeholder_binding c3W m0W [] false (by decide) (by decide) (by decide)).2
      c3Out (by decide)⟩

end NomLog
